import Mathlib

/-!
Verification of the Symposium conductor / SCP / MCP-over-ACP bridge core.

This file gives a shallow embedding, in Lean, of the parts of the Symposium
sources that the checked claims are about:

* the generic JSON-RPC handler chain (`scp/src/jsonrpc/handlers.rs`),
* the MCP service registry of the ACP proxy (`acp-proxy/src/mcp_server.rs`),
* the conductor's successor routing (`conductor/src/conductor.rs`),
* the MCP TCP bridge transformation (`conductor/src/conductor/mcp_bridge.rs`),
* the TCP shim retry loop (`conductor/src/mcp_bridge.rs`),
* and, modelled from the specification where the sources only ship the tests,
  the initialize handshake that negotiates the proxy capability.

Rust hash maps are embedded as association lists with hash-map semantics
(insert replaces, keys are unique on every reachable state); fresh UUIDs,
freshly bound TCP ports and channel handles are nondeterministic inputs of the
embedded operations and are therefore passed as explicit parameters.  Side
effects (responses sent, tasks spawned, messages forwarded) are reified as
values of small effect datatypes so that theorems can talk about them.
-/

/-- A JSON-RPC error object: `jsonrpcmsg::Error` / `agent_client_protocol::Error`
restricted to the fields the claims mention (`code`, `message`). -/
structure JsonRpcError where
  code : Int
  message : String
deriving Repr, DecidableEq

/-- The value of `Error::internal_error()`: code `-32603`. -/
def internalError : JsonRpcError := { code := -32603, message := "Internal error" }

/-- The substring relation on strings, used to state that an error message
contains a given fragment. -/
def strContainsSub (s pat : String) : Prop := pat.data <:+: s.data

/-- A string contains every string it extends on the right. -/
theorem strContainsSub_append_left (a b : String) : strContainsSub (a ++ b) a := by
  refine ⟨[], b.data, ?_⟩
  simp [String.data_append]

/-- A string contains every string it extends on the left. -/
theorem strContainsSub_append_right (a b : String) : strContainsSub (a ++ b) b := by
  refine ⟨a.data, [], ?_⟩
  simp [String.data_append]

/-- Rust `str::starts_with` on strings, via the underlying character lists
(kept executable so concrete instances evaluate). -/
def strStarts (s pat : String) : Bool := pat.data.isPrefixOf s.data

/- ------------------------------------------------------------------ -/
/- Hash maps (Rust `FxHashMap`/`HashMap`) as association lists.        -/
/- ------------------------------------------------------------------ -/

/-- Lookup in an embedded hash map (`HashMap::get`). -/
def mapGet {α : Type} (m : List (String × α)) (k : String) : Option α :=
  (m.find? (fun p => p.1 == k)).map (fun p => p.2)

/-- Removal from an embedded hash map (`HashMap::remove`). -/
def mapErase {α : Type} (m : List (String × α)) (k : String) : List (String × α) :=
  m.filter (fun p => !(p.1 == k))

/-- Insertion into an embedded hash map (`HashMap::insert`): replaces any
existing entry with the same key. -/
def mapInsert {α : Type} (m : List (String × α)) (k : String) (v : α) :
    List (String × α) :=
  mapErase m k ++ [(k, v)]

@[simp]
theorem mapGet_nil {α : Type} (k : String) : mapGet ([] : List (String × α)) k = none := rfl

@[simp]
theorem mapGet_cons {α : Type} (p : String × α) (m : List (String × α)) (k : String) :
    mapGet (p :: m) k = if p.1 = k then some p.2 else mapGet m k := by
  by_cases h : p.1 = k <;> simp [mapGet, List.find?_cons, beq_iff_eq, h]

@[simp]
theorem mapErase_nil {α : Type} (k : String) :
    mapErase ([] : List (String × α)) k = [] := rfl

@[simp]
theorem mapErase_cons {α : Type} (p : String × α) (m : List (String × α)) (k : String) :
    mapErase (p :: m) k = if p.1 = k then mapErase m k else p :: mapErase m k := by
  by_cases h : p.1 = k <;> simp [mapErase, List.filter_cons, beq_iff_eq, h]

@[simp]
theorem mapGet_erase_self {α : Type} (m : List (String × α)) (k : String) :
    mapGet (mapErase m k) k = none := by
  induction m with
  | nil => rfl
  | cons p m ih =>
    by_cases h : p.1 = k <;> simp [h, ih]

theorem mapGet_erase_ne {α : Type} (m : List (String × α)) (k k' : String) (h : k' ≠ k) :
    mapGet (mapErase m k) k' = mapGet m k' := by
  induction m with
  | nil => rfl
  | cons p m ih =>
    by_cases hp : p.1 = k
    · have hpk' : ¬ p.1 = k' := by simp [hp]; exact fun he => h he.symm
      simp [hp, hpk', ih, Ne.symm h]
    · by_cases hk' : p.1 = k' <;> simp [hp, hk', ih, h]

theorem mapGet_append {α : Type} (m₁ m₂ : List (String × α)) (k : String) :
    mapGet (m₁ ++ m₂) k = ((mapGet m₁ k).map some).getD (mapGet m₂ k) := by
  induction m₁ with
  | nil => simp
  | cons p m ih =>
    by_cases h : p.1 = k <;> simp [h, ih]

@[simp]
theorem mapGet_insert_self {α : Type} (m : List (String × α)) (k : String) (v : α) :
    mapGet (mapInsert m k v) k = some v := by
  simp [mapInsert, mapGet_append]

theorem mapGet_insert_ne {α : Type} (m : List (String × α)) (k k' : String) (v : α)
    (h : k' ≠ k) :
    mapGet (mapInsert m k v) k' = mapGet m k' := by
  rw [mapInsert, mapGet_append]
  rw [mapGet_erase_ne m k k' h]
  cases hg : mapGet m k' with
  | none => simp [Ne.symm h]
  | some v' => simp

theorem mapErase_of_get_none {α : Type} (m : List (String × α)) (k : String)
    (h : mapGet m k = none) : mapErase m k = m := by
  induction m with
  | nil => rfl
  | cons p m ih =>
    by_cases hp : p.1 = k
    · simp [hp] at h
    · simp [hp] at h
      simp [hp, ih h]

/- ------------------------------------------------------------------ -/
/- JSON-RPC handler chain (scp/src/jsonrpc/handlers.rs).               -/
/- ------------------------------------------------------------------ -/

/-- Result of offering a message to a handler: `scp::Handled`.  `yes` means the
handler consumed the message; `no cx` hands the message context back so the
next handler can try. -/
inductive Handled (α : Type) where
  | yes : Handled α
  | no : α → Handled α
deriving Repr, DecidableEq

/-- A JSON-RPC handler method, as a function from the message context and the
(untouched, shared) params to either an error or a `Handled` outcome.  This is
the shape of `JsonRpcHandler::handle_request` / `handle_notification`. -/
def HandlerFn (Cx P : Type) : Type := Cx → P → Except JsonRpcError (Handled Cx)

/-- The request side of `ChainHandler`: try `handler1`; only if it returns
`Handled::No(cx)` is `handler2` invoked, with that returned context and the
same params. -/
def ChainHandler.handle_request {Cx P : Type} (handler1 handler2 : HandlerFn Cx P) :
    HandlerFn Cx P :=
  fun cx params =>
    match handler1 cx params with
    | .error e => .error e
    | .ok .yes => .ok .yes
    | .ok (.no cx) => handler2 cx params

/-- The notification side of `ChainHandler`, identical in structure to the
request side. -/
def ChainHandler.handle_notification {Cx P : Type} (handler1 handler2 : HandlerFn Cx P) :
    HandlerFn Cx P :=
  fun cx params =>
    match handler1 cx params with
    | .error e => .error e
    | .ok .yes => .ok .yes
    | .ok (.no cx) => handler2 cx params

/- ------------------------------------------------------------------ -/
/- MCP service registry (acp-proxy/src/mcp_server.rs).                 -/
/- ------------------------------------------------------------------ -/

/-- A registered MCP server: name plus the synthetic `acp:<uuid>` url.  The
spawn factory carried by the Rust struct is irrelevant to the claims and is
not modelled. -/
structure RegisteredMcpServer where
  name : String
  url : String
deriving Repr, DecidableEq

/-- The registry state `McpServiceRegistryData`.  Connection mailboxes
(`mpsc::Sender<ProxiedMessage>`) are modelled as opaque channel handles
(`Nat`). -/
structure McpServiceRegistryData where
  registered_by_name : List (String × RegisteredMcpServer)
  registered_by_url : List (String × RegisteredMcpServer)
  connections : List (String × Nat)
deriving Repr, DecidableEq

/-- `McpServiceRegistry::add_rmcp_server`.  The fresh UUID produced by
`uuid::Uuid::new_v4()` is passed in as `uuid`.  Returns the updated registry
together with the error, if any (on error the state is returned unchanged,
matching the Rust early return). -/
def add_rmcp_server (reg : McpServiceRegistryData) (name uuid : String) :
    McpServiceRegistryData × Option JsonRpcError :=
  if (mapGet reg.registered_by_name name).isSome then
    (reg, some { code := -32603, message := s!"Server with name {name} already exists" })
  else
    let service : RegisteredMcpServer := { name := name, url := "acp:" ++ uuid }
    ({ reg with
        registered_by_name := mapInsert reg.registered_by_name service.name service,
        registered_by_url := mapInsert reg.registered_by_url service.url service },
      none)

/-- `McpServiceRegistry::remove_connection`: removes the entry and reports
whether it was present. -/
def remove_connection (reg : McpServiceRegistryData) (connection_id : String) :
    Bool × McpServiceRegistryData :=
  ((mapGet reg.connections connection_id).isSome,
    { reg with connections := mapErase reg.connections connection_id })

/-- Params of the `_mcp/connect` request. -/
structure McpConnectRequest where
  acp_url : String
deriving Repr, DecidableEq

/-- Params of the `_mcp/disconnect` notification. -/
structure McpDisconnectNotification where
  connection_id : String
deriving Repr, DecidableEq

/-- Observable actions of `handle_connect_request` towards its caller and the
runtime: the response sent on the request context, if any, and the tasks it
spawns.  `respondSuccess` is the action of answering the `_mcp/connect`
request with a success payload that carries a connection id; it is part of the
vocabulary so that theorems can state whether the handler ever performs it. -/
inductive ConnectEffect where
  | respondWithError : JsonRpcError → ConnectEffect
  | respondSuccess : String → ConnectEffect
  | spawnBridgeConnection : String → Nat → ConnectEffect
  | spawnMcpServer : String → ConnectEffect
deriving Repr, DecidableEq

/-- Whether a `ConnectEffect` is a response on the `_mcp/connect` request
context. -/
def ConnectEffect.isResponse : ConnectEffect → Bool
  | .respondWithError _ => true
  | .respondSuccess _ => true
  | _ => false

/-- `McpServiceRegistry::handle_connect_request`.  The fresh UUID for the
connection id and the fresh channel handle are passed as `uuid` and
`mailbox`.  Returns the `Handled` outcome, the updated registry, and the
effects performed, in order. -/
def handle_connect_request (reg : McpServiceRegistryData)
    (result : Except JsonRpcError McpConnectRequest) (uuid : String) (mailbox : Nat) :
    Handled Unit × McpServiceRegistryData × List ConnectEffect :=
  match result with
  | .error err => (.yes, reg, [.respondWithError err])
  | .ok request =>
    match mapGet reg.registered_by_url request.acp_url with
    | none => (.no (), reg, [])
    | some registered_server =>
      let connection_id := "mcp-over-acp-connection:" ++ uuid
      let reg2 := { reg with connections := mapInsert reg.connections connection_id mailbox }
      (.yes, reg2,
        [.spawnBridgeConnection connection_id mailbox, .spawnMcpServer registered_server.url])

/-- Observable actions of `handle_mcp_disconnect_notification`. -/
inductive NotifyEffect where
  | sendErrorNotification : JsonRpcError → NotifyEffect
deriving Repr, DecidableEq

/-- `McpServiceRegistry::handle_mcp_disconnect_notification`: removes the
connection if present (then the notification is handled), otherwise leaves it
to the rest of the chain. -/
def handle_mcp_disconnect_notification (reg : McpServiceRegistryData)
    (result : Except JsonRpcError McpDisconnectNotification) :
    Handled Unit × McpServiceRegistryData × List NotifyEffect :=
  match result with
  | .error err => (.yes, reg, [.sendErrorNotification err])
  | .ok request =>
    let r := remove_connection reg request.connection_id
    if r.1 then (.yes, r.2, []) else (.no (), r.2, [])

/-- An entry of a `session/new` request's `mcp_servers` list
(`agent_client_protocol::McpServer`); only the variants the embedded code
inspects (`Http`) or produces (`Stdio`) are modelled. -/
inductive McpServer where
  | http : (name : String) → (url : String) → (headers : List (String × String)) → McpServer
  | stdio : (name : String) → (command : String) → (args : List String) →
      (env : List (String × String)) → McpServer
deriving Repr, DecidableEq

/-- `RegisteredMcpServer::acp_mcp_server`: the `mcp_servers` entry advertised
for a registered server — http transport, the server's name and synthetic url,
no headers. -/
def acp_mcp_server (server : RegisteredMcpServer) : McpServer :=
  .http server.name server.url []

/-- A `session/new` request (`agent_client_protocol::NewSessionRequest`)
restricted to the fields the claims mention. -/
structure NewSessionRequestM where
  cwd : String
  mcp_servers : List McpServer
deriving Repr, DecidableEq

/-- Observable actions of `handle_new_session_request`.
`forwardToSuccessorAndRespond req` stands for
`request_cx.send_request_to_successor(req).forward_to_request_cx(request_cx.cast())`.
Modelled from the spec: the bodies of `send_request_to_successor` and
`forward_to_request_cx` are not among the sources; per the spec they send the
request downstream and complete the original request context with whatever
response the successor returns. -/
inductive SessionEffect where
  | sendErrorNotification : JsonRpcError → SessionEffect
  | forwardToSuccessorAndRespond : NewSessionRequestM → SessionEffect
deriving Repr, DecidableEq

/-- `McpServiceRegistry::handle_new_session_request`: pushes one advertised
entry per registered server onto the request's `mcp_servers`, then forwards
the enriched request to the successor, piping the successor's response back to
the original requester. -/
def handle_new_session_request (reg : McpServiceRegistryData)
    (result : Except JsonRpcError NewSessionRequestM) :
    Handled Unit × List SessionEffect :=
  match result with
  | .error err => (.yes, [.sendErrorNotification err])
  | .ok request =>
    let enriched :=
      { request with
          mcp_servers :=
            request.mcp_servers ++ reg.registered_by_url.map (fun p => acp_mcp_server p.2) }
    (.yes, [.forwardToSuccessorAndRespond enriched])

/- ------------------------------------------------------------------ -/
/- Conductor successor routing (conductor/src/conductor.rs).           -/
/- ------------------------------------------------------------------ -/

/-- A spawned component slot as the conductor sees it; the JSON-RPC connection
context is an opaque link handle. -/
structure ComponentM where
  jsonrpccx : Nat
deriving Repr, DecidableEq

/-- The action `Conductor::serve` takes for one
`ComponentToItsSuccessorSend{Request,Notification}` message. -/
inductive SuccessorAction where
  | sendJsonRequest : (link : Nat) → (method : String) → SuccessorAction
  | respondWithError : JsonRpcError → SuccessorAction
  | sendJsonNotification : (link : Nat) → (method : String) → SuccessorAction
  | sendErrorNotification : JsonRpcError → SuccessorAction
deriving Repr, DecidableEq

/-- The `ComponentToItsSuccessorSendRequest` arm of `Conductor::serve`: look up
the component at `component_index + 1`; forward the request on its link (the
response is piped back to the requesting component) or, if there is no
successor, answer the requesting component with an internal error. -/
def successor_send_request_action (components : List ComponentM) (component_index : Nat)
    (method : String) : SuccessorAction :=
  match components[component_index + 1]? with
  | some successor_component => .sendJsonRequest successor_component.jsonrpccx method
  | none => .respondWithError internalError

/-- The `ComponentToItsSuccessorSendNotification` arm of `Conductor::serve`. -/
def successor_send_notification_action (components : List ComponentM) (component_index : Nat)
    (method : String) : SuccessorAction :=
  match components[component_index + 1]? with
  | some successor_component => .sendJsonNotification successor_component.jsonrpccx method
  | none => .sendErrorNotification internalError

/- ------------------------------------------------------------------ -/
/- MCP TCP bridge (conductor/src/conductor/mcp_bridge.rs).             -/
/- ------------------------------------------------------------------ -/

/-- Routing data for one MCP bridge: `McpBridgeInfo`.  The bridge mailbox is
an opaque channel handle. -/
structure McpBridgeInfo where
  acp_url : String
  tcp_port : Nat
  bridge_tx : Nat
deriving Repr, DecidableEq

/-- The bridge-owning part of `McpBridger`: the map from `acp:` urls to bridge
info. -/
structure McpBridgerM where
  mcp_bridges : List (String × McpBridgeInfo)
deriving Repr, DecidableEq

/-- `McpBridger::spawn_tcp_listener`: binds `127.0.0.1:0`; the ephemeral port
the bind yields is passed in as `boundPort`, the bridge channel as `mailbox`.
Stores the `acp_url → info` mapping and returns the port. -/
def spawn_tcp_listener (st : McpBridgerM) (acp_url : String) (boundPort mailbox : Nat) :
    McpBridgerM × Nat :=
  ({ mcp_bridges :=
      mapInsert st.mcp_bridges acp_url
        { acp_url := acp_url, tcp_port := boundPort, bridge_tx := mailbox } },
    boundPort)

/-- `McpBridger::transform_mcp_servers` for one `mcp_servers` entry: non-http
entries and http entries whose url does not start with `acp:` pass through
unchanged; an `acp:` http entry with headers is an internal error; otherwise a
TCP listener is spawned and the entry becomes a stdio transport
`conductor mcp <port>`. -/
def transform_mcp_servers (st : McpBridgerM) (boundPort mailbox : Nat) (server : McpServer) :
    Except JsonRpcError (McpBridgerM × McpServer) :=
  match server with
  | .stdio _ _ _ _ => .ok (st, server)
  | .http name url headers =>
    if ¬ strStarts url "acp:" then .ok (st, server)
    else if headers ≠ [] then .error internalError
    else
      let r := spawn_tcp_listener st url boundPort mailbox
      .ok (r.1, .stdio name "conductor" ["mcp", toString r.2] [])

/- ------------------------------------------------------------------ -/
/- TCP shim retry loop (conductor/src/mcp_bridge.rs).                  -/
/- ------------------------------------------------------------------ -/

/-- Result of `connect_with_retry`: which attempt connected (`none` when the
routine returned an error), the sleeps performed between failed attempts, and
how many connection attempts were made. -/
structure RetryOutcome where
  connectedAttempt : Option Nat
  sleeps : List Nat
  attemptsMade : Nat
deriving Repr, DecidableEq

/-- The `for attempt in 1..=max_retries` loop of `connect_with_retry`, with
the outcome of each `TcpStream::connect` call supplied by the oracle
`connect`.  `remaining` counts the attempts still allowed (so the loop arm
`attempt < max_retries` is `remaining ≠ 1`); the `0` case is the
`unreachable!()` after the loop. -/
def connect_with_retry_go (connect : Nat → Bool) :
    Nat → Nat → Nat → RetryOutcome
  | 0, _, _ => { connectedAttempt := none, sleeps := [], attemptsMade := 0 }
  | remaining + 1, attempt, retry_delay_ms =>
    if connect attempt then
      { connectedAttempt := some attempt, sleeps := [], attemptsMade := 1 }
    else if remaining = 0 then
      { connectedAttempt := none, sleeps := [], attemptsMade := 1 }
    else
      let rest :=
        connect_with_retry_go connect remaining (attempt + 1) (min (retry_delay_ms * 2) 1000)
      { connectedAttempt := rest.connectedAttempt,
        sleeps := retry_delay_ms :: rest.sleeps,
        attemptsMade := rest.attemptsMade + 1 }

/-- `connect_with_retry`: `max_retries = 10`, first attempt is 1, initial
delay 50 ms. -/
def connect_with_retry (connect : Nat → Bool) : RetryOutcome :=
  connect_with_retry_go connect 10 1 50

/-- The sleep sequence produced when every allowed attempt fails, starting
from a given delay: double after each failure, capped at 1000 ms, with no
sleep after the final attempt. -/
def backoffDelays : Nat → Nat → List Nat
  | 0, _ => []
  | remaining + 1, delay =>
    if remaining = 0 then [] else delay :: backoffDelays remaining (min (delay * 2) 1000)

/- ------------------------------------------------------------------ -/
/- Initialize handshake (modelled from the spec).                      -/
/- ------------------------------------------------------------------ -/

/-- An `initialize` request reduced to the fields the handshake touches: the
protocol version stands for all pass-through content, `proxyFlag` is whether
`meta.symposium.proxy = true` is present. -/
structure InitializeRequestM where
  protocol_version : Nat
  proxyFlag : Bool
deriving Repr, DecidableEq

/-- An `initialize` response reduced likewise; `proxyEcho` is whether the
response carries `meta.symposium.proxy = true`. -/
structure InitializeResponseM where
  protocol_version : Nat
  proxyEcho : Bool
deriving Repr, DecidableEq

/-- Modelled from the spec: the conductor's initialize-forwarding logic is not
among the sources (only its tests are).  Per the spec, for a chain of
`numComponents` components `c₀ … cₙ` (so `n = numComponents - 1`): the
conductor forwards the editor's `initialize` to `c₀` adding
`meta.symposium.proxy = true` iff `n ≥ 1`, and each `cᵢ` with `i < n` forwards
to `cᵢ₊₁` adding the flag iff `i + 1 < n`.  `forwarded_init_request req i` is
the request component `i` receives. -/
def forwarded_init_request (numComponents : Nat) (req : InitializeRequestM) :
    Nat → InitializeRequestM
  | 0 => { req with proxyFlag := decide (1 ≤ numComponents - 1) }
  | i + 1 => { req with proxyFlag := decide (i + 1 + 1 ≤ numComponents - 1) }

/-- Modelled from the spec: the conductor's scan of the initialize responses
for the first non-terminal component that failed to echo the proxy
capability.  `echo j` is whether component `j`'s initialize response carried
`meta.symposium.proxy = true`; the scan walks components `i`, `i+1`, … while
`remaining` counts how many are still to check. -/
def first_non_proxy (echo : Nat → Bool) : Nat → Nat → Option Nat
  | 0, _ => none
  | remaining + 1, i => if echo i then first_non_proxy echo remaining (i + 1) else some i

/-- Modelled from the spec: the conductor's verdict on the initialize
handshake, which is not among the sources (only its tests are).  All
components at positions `< numComponents - 1` were offered the proxy role; if
any of them omitted the echo, the editor's `initialize` resolves with a
`-32603` error naming the first offending component, otherwise it resolves
with the agent's response. -/
def conductor_check_handshake (numComponents : Nat) (echo : Nat → Bool)
    (agentResponse : InitializeResponseM) : Except JsonRpcError InitializeResponseM :=
  match first_non_proxy echo (numComponents - 1) 0 with
  | some i =>
    .error { code := -32603, message := "component " ++ toString i ++ " is not a proxy" }
  | none => .ok agentResponse

/-- Modelled from the spec: after a failed handshake no further routing occurs
for that initialize — the conductor only enters routing mode when the
handshake succeeded. -/
def routing_enabled_after_handshake (numComponents : Nat) (echo : Nat → Bool)
    (agentResponse : InitializeResponseM) : Bool :=
  match conductor_check_handshake numComponents echo agentResponse with
  | .ok _ => true
  | .error _ => false

/- ------------------------------------------------------------------ -/
/- Supporting lemmas.                                                  -/
/- ------------------------------------------------------------------ -/

/-- Containment of strings is inherited from containment on the fragments. -/
theorem strContainsSub_of_sub (s a b : String) (h1 : strContainsSub s a)
    (h2 : b.data <:+: a.data) : strContainsSub s b :=
  List.IsInfix.trans h2 h1

/-- The scan `first_non_proxy` reports the first component that failed to echo
the proxy capability. -/
theorem first_non_proxy_eq_some (echo : Nat → Bool) :
    ∀ remaining start i, start ≤ i → i < start + remaining → echo i = false →
      (∀ j, start ≤ j → j < i → echo j = true) →
      first_non_proxy echo remaining start = some i := by
  intro remaining
  induction remaining with
  | zero => intro start i h1 h2 h3 h4; omega
  | succ r ih =>
    intro start i h1 h2 h3 h4
    by_cases hsi : start = i
    · subst hsi
      simp [first_non_proxy, h3]
    · have hs : echo start = true := h4 start le_rfl (by omega)
      have := ih (start + 1) i (by omega) (by omega) h3 (fun j hj1 hj2 => h4 j (by omega) hj2)
      simp [first_non_proxy, hs, this]

/-- Each call of the retry loop makes at most `remaining` connection
attempts. -/
theorem connect_go_attempts_le (connect : Nat → Bool) :
    ∀ remaining attempt delay,
      (connect_with_retry_go connect remaining attempt delay).attemptsMade ≤ remaining := by
  intro remaining
  induction remaining with
  | zero => intro a d; simp [connect_with_retry_go]
  | succ r ih =>
    intro a d
    by_cases h : connect a
    · simp [connect_with_retry_go, h]
    · by_cases hr : r = 0
      · simp [connect_with_retry_go, h, hr]
      · have := ih (a + 1) (min (d * 2) 1000)
        simp [connect_with_retry_go, h, hr]
        omega

/-- When every allowed attempt fails, the retry loop makes them all, sleeping
the backoff sequence, and reports no connection. -/
theorem connect_go_all_fail (connect : Nat → Bool) :
    ∀ remaining attempt delay,
      (∀ a, attempt ≤ a → a < attempt + remaining → connect a = false) →
      connect_with_retry_go connect remaining attempt delay =
        { connectedAttempt := none, sleeps := backoffDelays remaining delay,
          attemptsMade := remaining } := by
  intro remaining
  induction remaining with
  | zero => intro a d _; rfl
  | succ r ih =>
    intro a d h
    have ha : connect a = false := h a le_rfl (by omega)
    by_cases hr : r = 0
    · subst hr
      simp [connect_with_retry_go, ha, backoffDelays]
    · have hrec := ih (a + 1) (min (d * 2) 1000) (fun x hx1 hx2 => h x (by omega) (by omega))
      simp [connect_with_retry_go, ha, hr, backoffDelays, hrec]

/-- When the first successful attempt is attempt `k`, the retry loop stops
there, after exactly `k + 1 - attempt` attempts. -/
theorem connect_go_first_success (connect : Nat → Bool) :
    ∀ remaining attempt delay k,
      attempt ≤ k → k < attempt + remaining → connect k = true →
      (∀ j, attempt ≤ j → j < k → connect j = false) →
      (connect_with_retry_go connect remaining attempt delay).connectedAttempt = some k ∧
      (connect_with_retry_go connect remaining attempt delay).attemptsMade = k + 1 - attempt := by
  intro remaining
  induction remaining with
  | zero => intro a d k h1 h2; omega
  | succ r ih =>
    intro a d k h1 h2 hk hprev
    by_cases hak : a = k
    · subst hak
      constructor <;> simp [connect_with_retry_go, hk]
    · have ha : connect a = false := hprev a le_rfl (by omega)
      have hr : r ≠ 0 := by omega
      have hrec := ih (a + 1) (min (d * 2) 1000) k (by omega) (by omega) hk
        (fun j hj1 hj2 => hprev j (by omega) hj2)
      constructor <;> simp [connect_with_retry_go, ha, hr, hrec.1, hrec.2]
      omega

/- ------------------------------------------------------------------ -/
/- Claim theorems.                                                     -/
/- ------------------------------------------------------------------ -/

/-- C1: during the initialize handshake over a conductor chain of
`numComponents` components, every component at a position strictly before the
last receives the forwarded `initialize` request with
`meta.symposium.proxy = true` (everything else passing through unchanged), and
the last component — the agent — receives the request without that flag. -/
theorem initialize_proxy_flag_distribution (numComponents i : Nat)
    (req : InitializeRequestM) (hi : i < numComponents) :
    (forwarded_init_request numComponents req i).protocol_version = req.protocol_version ∧
    (i < numComponents - 1 → (forwarded_init_request numComponents req i).proxyFlag = true) ∧
    (i = numComponents - 1 → (forwarded_init_request numComponents req i).proxyFlag = false) := by
  cases i with
  | zero =>
    refine ⟨rfl, fun h => ?_, fun h => ?_⟩ <;>
      simp only [forwarded_init_request, decide_eq_true_eq, decide_eq_false_iff_not] <;> omega
  | succ n =>
    refine ⟨rfl, fun h => ?_, fun h => ?_⟩ <;>
      simp only [forwarded_init_request, decide_eq_true_eq, decide_eq_false_iff_not] <;> omega

/-- Witness for C1 at a three-component chain: the middle component is offered
the proxy role, the agent is not. -/
theorem initialize_proxy_flag_distribution_witness :
    (forwarded_init_request 3 { protocol_version := 1, proxyFlag := false } 1).proxyFlag = true ∧
    (forwarded_init_request 3 { protocol_version := 1, proxyFlag := false } 2).proxyFlag = false :=
  ⟨(initialize_proxy_flag_distribution 3 1 { protocol_version := 1, proxyFlag := false }
      (by omega)).2.1 (by omega),
    (initialize_proxy_flag_distribution 3 2 { protocol_version := 1, proxyFlag := false }
      (by omega)).2.2 rfl⟩

/-- C2: if a non-terminal component of the chain (the first offender being
component `i`) omits the proxy echo from its initialize response, the editor's
`initialize` resolves with a `-32603` error whose message contains
`component <i>` and `is not a proxy`, and no further routing occurs for that
initialize. -/
theorem proxy_handshake_failure_error (numComponents : Nat) (echo : Nat → Bool)
    (agentResponse : InitializeResponseM) (i : Nat)
    (hi : i < numComponents - 1) (hbad : echo i = false)
    (hfirst : ∀ j, j < i → echo j = true) :
    ∃ e, conductor_check_handshake numComponents echo agentResponse = .error e ∧
      e.code = -32603 ∧
      strContainsSub e.message ("component " ++ toString i) ∧
      strContainsSub e.message "is not a proxy" ∧
      routing_enabled_after_handshake numComponents echo agentResponse = false := by
  have hscan : first_non_proxy echo (numComponents - 1) 0 = some i :=
    first_non_proxy_eq_some echo (numComponents - 1) 0 i (Nat.zero_le i) (by omega) hbad
      (fun j _ hj => hfirst j hj)
  refine ⟨{ code := -32603, message := "component " ++ toString i ++ " is not a proxy" },
    ?_, rfl, ?_, ?_, ?_⟩
  · simp [conductor_check_handshake, hscan]
  · exact strContainsSub_append_left ("component " ++ toString i) " is not a proxy"
  · refine strContainsSub_of_sub _ (" is not a proxy") _ ?_ ?_
    · exact strContainsSub_append_right ("component " ++ toString i) " is not a proxy"
    · exact ⟨[' '], [], by simp⟩
  · simp [routing_enabled_after_handshake, conductor_check_handshake, hscan]

/-- Witness for C2: a two-component chain whose first component refuses the
proxy role fails the initialize with the named error. -/
theorem proxy_handshake_failure_error_witness :
    ∃ e, conductor_check_handshake 2 (fun _ => false) { protocol_version := 1, proxyEcho := false } =
        .error e ∧
      e.code = -32603 ∧
      strContainsSub e.message ("component " ++ toString 0) ∧
      strContainsSub e.message "is not a proxy" ∧
      routing_enabled_after_handshake 2 (fun _ => false)
        { protocol_version := 1, proxyEcho := false } = false :=
  proxy_handshake_failure_error 2 (fun _ => false) { protocol_version := 1, proxyEcho := false } 0
    (by omega) rfl (fun j hj => absurd hj (Nat.not_lt_zero j))

/-- A registry with one registered server, used to evaluate
`handle_connect_request` at a concrete, matching `_mcp/connect` request. -/
def connectDemoRegistry : McpServiceRegistryData :=
  { registered_by_name := [("tools", { name := "tools", url := "acp:abc" })],
    registered_by_url := [("acp:abc", { name := "tools", url := "acp:abc" })],
    connections := [] }

/-- C3, evaluated at the failing input: for a `_mcp/connect` request whose
`acp_url` is registered, `handle_connect_request` allocates a fresh connection
id and records it in the connections map, but it performs no response action
on the request context at all — in particular it never sends the success
response carrying the allocated connection id that the specification
requires. -/
theorem connect_request_records_connection_but_sends_no_response :
    handle_connect_request connectDemoRegistry (.ok { acp_url := "acp:abc" }) "u1" 7 =
      (.yes,
        { registered_by_name := [("tools", { name := "tools", url := "acp:abc" })],
          registered_by_url := [("acp:abc", { name := "tools", url := "acp:abc" })],
          connections := [("mcp-over-acp-connection:u1", 7)] },
        [.spawnBridgeConnection "mcp-over-acp-connection:u1" 7, .spawnMcpServer "acp:abc"]) ∧
    List.filter ConnectEffect.isResponse
        (handle_connect_request connectDemoRegistry (.ok { acp_url := "acp:abc" }) "u1" 7).2.2 =
      [] := by
  constructor <;> rfl

/-- C4: for `chain(H₁, H₂)` and every inbound request or notification, if `H₁`
returns `Handled::Yes` the outcome is `Yes` and `H₂` is never invoked (the
outcome does not depend on `H₂` at all), and if `H₁` returns `Handled::No(cx)`
then `H₂` is invoked with exactly the context `H₁` returned and the same
params. -/
theorem chain_handler_law {Cx NCx P : Type} (h1 h2 : HandlerFn Cx P) (g1 g2 : HandlerFn NCx P)
    (cx : Cx) (ncx : NCx) (p : P) :
    (h1 cx p = .ok .yes →
      ChainHandler.handle_request h1 h2 cx p = .ok .yes ∧
      ∀ h2' : HandlerFn Cx P,
        ChainHandler.handle_request h1 h2' cx p = ChainHandler.handle_request h1 h2 cx p) ∧
    (∀ cx', h1 cx p = .ok (.no cx') → ChainHandler.handle_request h1 h2 cx p = h2 cx' p) ∧
    (g1 ncx p = .ok .yes →
      ChainHandler.handle_notification g1 g2 ncx p = .ok .yes ∧
      ∀ g2' : HandlerFn NCx P,
        ChainHandler.handle_notification g1 g2' ncx p =
          ChainHandler.handle_notification g1 g2 ncx p) ∧
    (∀ ncx', g1 ncx p = .ok (.no ncx') →
      ChainHandler.handle_notification g1 g2 ncx p = g2 ncx' p) := by
  refine ⟨fun h => ⟨?_, fun h2' => ?_⟩, fun cx' h => ?_, fun h => ⟨?_, fun g2' => ?_⟩,
      fun ncx' h => ?_⟩ <;>
    simp [ChainHandler.handle_request, ChainHandler.handle_notification, h]

/-- Witness for C4 at concrete handlers over `Nat` contexts: a first handler
that handles stops the chain; a first handler that declines passes the
returned context to the second handler. -/
theorem chain_handler_law_witness :
    @ChainHandler.handle_request Nat Nat (fun _ _ => .ok .yes) (fun _ _ => .ok (.no 0)) 5 7 =
      .ok .yes ∧
    @ChainHandler.handle_request Nat Nat (fun cx _ => .ok (.no (cx + 1)))
      (fun cx p => .ok (.no (cx + p))) 5 7 = .ok (.no 13) := by
  constructor
  · exact ((@chain_handler_law Nat Nat Nat (fun _ _ => .ok .yes) (fun _ _ => .ok (.no 0))
      (fun _ _ => .ok .yes) (fun _ _ => .ok .yes) 5 5 7).1 rfl).1
  · exact ((@chain_handler_law Nat Nat Nat (fun cx _ => .ok (.no (cx + 1)))
      (fun cx p => .ok (.no (cx + p))) (fun _ _ => .ok .yes) (fun _ _ => .ok .yes)
      5 5 7).2.1 6 rfl).trans rfl

/-- C5: handling `session/new` appends to the request's `mcp_servers` one
entry per registered server — carrying that server's name, its synthetic
`acp:` url and http transport — and forwards the enriched request to the
successor, responding to the original requester with the successor's
response. -/
theorem new_session_enrichment (reg : McpServiceRegistryData) (req : NewSessionRequestM)
    (hurl : ∀ p ∈ reg.registered_by_url, strStarts p.2.url "acp:" = true) :
    ∃ enriched,
      handle_new_session_request reg (.ok req) =
        (.yes, [.forwardToSuccessorAndRespond enriched]) ∧
      enriched.cwd = req.cwd ∧
      enriched.mcp_servers =
        req.mcp_servers ++ reg.registered_by_url.map (fun p => acp_mcp_server p.2) ∧
      ∀ p ∈ reg.registered_by_url,
        acp_mcp_server p.2 = .http p.2.name p.2.url [] ∧ strStarts p.2.url "acp:" = true :=
  ⟨_, rfl, rfl, rfl, fun p hp => ⟨rfl, hurl p hp⟩⟩

/-- A registry with one registered server, used to instantiate the
`session/new` enrichment theorem. -/
def sessionDemoRegistry : McpServiceRegistryData :=
  { registered_by_name := [("tools", { name := "tools", url := "acp:abc" })],
    registered_by_url := [("acp:abc", { name := "tools", url := "acp:abc" })],
    connections := [] }

/-- Witness for C5 at a concrete registry and request. -/
theorem new_session_enrichment_witness :
    ∃ enriched,
      handle_new_session_request sessionDemoRegistry
          (.ok { cwd := "/tmp", mcp_servers := [.http "ext" "https://h" []] }) =
        (.yes, [.forwardToSuccessorAndRespond enriched]) ∧
      enriched.cwd = "/tmp" ∧
      enriched.mcp_servers =
        [McpServer.http "ext" "https://h" []] ++
          sessionDemoRegistry.registered_by_url.map (fun p => acp_mcp_server p.2) ∧
      ∀ p ∈ sessionDemoRegistry.registered_by_url,
        acp_mcp_server p.2 = .http p.2.name p.2.url [] ∧ strStarts p.2.url "acp:" = true :=
  new_session_enrichment sessionDemoRegistry
    { cwd := "/tmp", mcp_servers := [.http "ext" "https://h" []] } (by decide)

/-- Counterexample for C6 as stated: an http entry whose url starts with
`acp:` but that carries a header is NOT transformed into a stdio entry — the
transformation aborts with an internal error instead. -/
theorem transform_acp_entry_with_headers_is_an_error :
    transform_mcp_servers { mcp_bridges := [] } 4242 9
        (.http "tools" "acp:u1" [("authorization", "x")]) = .error internalError := by
  rfl

/-- C6 (amended): an http entry whose url starts with `acp:` and whose headers
are empty becomes the stdio entry `conductor mcp <port>` for the freshly bound
port, and the `acp_url → (port, mailbox)` mapping is stored; an `acp:` http
entry with non-empty headers is an internal error; every other entry is left
unchanged. -/
theorem transform_mcp_servers_cases (st : McpBridgerM) (boundPort mailbox : Nat)
    (name url : String) (headers : List (String × String))
    (command : String) (args : List String) (env : List (String × String)) :
    (strStarts url "acp:" = true → headers = [] →
      ∃ st2,
        transform_mcp_servers st boundPort mailbox (.http name url headers) =
          .ok (st2, .stdio name "conductor" ["mcp", toString boundPort] []) ∧
        mapGet st2.mcp_bridges url =
          some { acp_url := url, tcp_port := boundPort, bridge_tx := mailbox } ∧
        ∀ k, k ≠ url → mapGet st2.mcp_bridges k = mapGet st.mcp_bridges k) ∧
    (strStarts url "acp:" = true → headers ≠ [] →
      transform_mcp_servers st boundPort mailbox (.http name url headers) =
        .error internalError) ∧
    (strStarts url "acp:" = false →
      transform_mcp_servers st boundPort mailbox (.http name url headers) =
        .ok (st, .http name url headers)) ∧
    transform_mcp_servers st boundPort mailbox (.stdio name command args env) =
      .ok (st, .stdio name command args env) := by
  refine ⟨fun h1 h2 => ?_, fun h1 h2 => ?_, fun h1 => ?_, rfl⟩
  · subst h2
    refine ⟨McpBridgerM.mk
        (mapInsert st.mcp_bridges url (McpBridgeInfo.mk url boundPort mailbox)), ?_, ?_, ?_⟩
    · simp [transform_mcp_servers, spawn_tcp_listener, h1]
    · exact mapGet_insert_self st.mcp_bridges url _
    · exact fun k hk => mapGet_insert_ne st.mcp_bridges url k _ hk
  · simp [transform_mcp_servers, h1, h2]
  · simp [transform_mcp_servers, h1]

/-- Witness for C6 (amended) at a concrete bridger state and entry. -/
theorem transform_mcp_servers_cases_witness :
    (∃ st2,
      transform_mcp_servers { mcp_bridges := [] } 4242 9 (.http "tools" "acp:u1" []) =
        .ok (st2, .stdio "tools" "conductor" ["mcp", toString 4242] []) ∧
      mapGet st2.mcp_bridges "acp:u1" =
        some { acp_url := "acp:u1", tcp_port := 4242, bridge_tx := 9 } ∧
      ∀ k, k ≠ "acp:u1" →
        mapGet st2.mcp_bridges k = mapGet (McpBridgerM.mk []).mcp_bridges k) ∧
    transform_mcp_servers { mcp_bridges := [] } 4242 9
        (.http "tools" "https://example" []) =
      .ok ({ mcp_bridges := [] }, .http "tools" "https://example" []) :=
  ⟨(transform_mcp_servers_cases { mcp_bridges := [] } 4242 9 "tools" "acp:u1" [] "c" [] []).1
      (by decide) rfl,
    (transform_mcp_servers_cases { mcp_bridges := [] } 4242 9 "tools" "https://example" []
      "c" [] []).2.2.1 (by decide)⟩

/-- C7: `_mcp/disconnect` is idempotent on the connections map — the first
disconnect of a registered id removes the session, a second disconnect with
the same id finds nothing to remove (the removal reports `false`) and leaves
the registry exactly as it was, handing the notification back unhandled; an
id that was never registered is not handled and changes nothing. -/
theorem mcp_disconnect_idempotent (reg : McpServiceRegistryData) (id : String) (mb : Nat) :
    (mapGet reg.connections id = some mb →
      (handle_mcp_disconnect_notification reg (.ok { connection_id := id })).1 = .yes ∧
      mapGet (handle_mcp_disconnect_notification reg
          (.ok { connection_id := id })).2.1.connections id = none ∧
      handle_mcp_disconnect_notification
          (handle_mcp_disconnect_notification reg (.ok { connection_id := id })).2.1
          (.ok { connection_id := id }) =
        (.no (), (handle_mcp_disconnect_notification reg (.ok { connection_id := id })).2.1,
          []) ∧
      (remove_connection
          (handle_mcp_disconnect_notification reg (.ok { connection_id := id })).2.1 id).1 =
        false) ∧
    (mapGet reg.connections id = none →
      handle_mcp_disconnect_notification reg (.ok { connection_id := id }) =
        (.no (), reg, [])) := by
  constructor
  · intro h
    have h1 : handle_mcp_disconnect_notification reg (.ok { connection_id := id }) =
        (.yes, { reg with connections := mapErase reg.connections id }, []) := by
      simp [handle_mcp_disconnect_notification, remove_connection, h]
    have h2 : mapGet (mapErase reg.connections id) id = none :=
      mapGet_erase_self reg.connections id
    have h3 : mapErase (mapErase reg.connections id) id = mapErase reg.connections id :=
      mapErase_of_get_none _ _ h2
    rw [h1]
    refine ⟨rfl, h2, ?_, ?_⟩
    · simp [handle_mcp_disconnect_notification, remove_connection, h2, h3]
    · simp [remove_connection, h2]
  · intro h
    have h3 : mapErase reg.connections id = reg.connections := mapErase_of_get_none _ _ h
    simp [handle_mcp_disconnect_notification, remove_connection, h, h3]

/-- Witness for C7 at a registry with one live connection. -/
theorem mcp_disconnect_idempotent_witness :
    (handle_mcp_disconnect_notification
        { registered_by_name := [], registered_by_url := [], connections := [("c1", 5)] }
        (.ok { connection_id := "c1" })).1 = .yes ∧
    handle_mcp_disconnect_notification
        (handle_mcp_disconnect_notification
          { registered_by_name := [], registered_by_url := [], connections := [("c1", 5)] }
          (.ok { connection_id := "c1" })).2.1
        (.ok { connection_id := "c1" }) =
      (.no (),
        (handle_mcp_disconnect_notification
          { registered_by_name := [], registered_by_url := [], connections := [("c1", 5)] }
          (.ok { connection_id := "c1" })).2.1,
        []) ∧
    handle_mcp_disconnect_notification
        { registered_by_name := [], registered_by_url := [], connections := [("c1", 5)] }
        (.ok { connection_id := "never" }) =
      (.no (),
        { registered_by_name := [], registered_by_url := [], connections := [("c1", 5)] },
        []) := by
  have h := mcp_disconnect_idempotent
    { registered_by_name := [], registered_by_url := [], connections := [("c1", 5)] } "c1" 5
  have hn := mcp_disconnect_idempotent
    { registered_by_name := [], registered_by_url := [], connections := [("c1", 5)] } "never" 5
  exact ⟨(h.1 rfl).1, (h.1 rfl).2.2.1, hn.2 rfl⟩

/-- C8: the TCP shim's connect routine makes at most 10 connection attempts;
when every attempt fails it makes all 10, sleeping 50, 100, 200, 400, 800,
1000, 1000, 1000, 1000 ms between consecutive attempts, and reports failure;
when attempt `k` is the first to succeed it returns that connection after
exactly `k` attempts. -/
theorem connect_with_retry_spec (connect : Nat → Bool) :
    (connect_with_retry connect).attemptsMade ≤ 10 ∧
    ((∀ a, 1 ≤ a → a ≤ 10 → connect a = false) →
      connect_with_retry connect =
        { connectedAttempt := none,
          sleeps := [50, 100, 200, 400, 800, 1000, 1000, 1000, 1000],
          attemptsMade := 10 }) ∧
    (∀ k, 1 ≤ k → k ≤ 10 → connect k = true →
      (∀ j, 1 ≤ j → j < k → connect j = false) →
      (connect_with_retry connect).connectedAttempt = some k ∧
      (connect_with_retry connect).attemptsMade = k) := by
  refine ⟨connect_go_attempts_le connect 10 1 50, fun hfail => ?_, fun k hk1 hk10 hk hprev => ?_⟩
  · have h := connect_go_all_fail connect 10 1 50 (fun a ha1 ha2 => hfail a ha1 (by omega))
    have hb : backoffDelays 10 50 = [50, 100, 200, 400, 800, 1000, 1000, 1000, 1000] := by rfl
    rw [connect_with_retry, h, hb]
  · have h := connect_go_first_success connect 10 1 50 k hk1 (by omega) hk
      (fun j hj1 hj2 => hprev j hj1 hj2)
    exact ⟨h.1, by rw [connect_with_retry, h.2]; omega⟩

/-- Witness for C8: an oracle whose first success is attempt 3 yields the
connection on attempt 3 after 3 attempts. -/
theorem connect_with_retry_spec_witness :
    (connect_with_retry (fun a => decide (a = 3))).connectedAttempt = some 3 ∧
    (connect_with_retry (fun a => decide (a = 3))).attemptsMade = 3 :=
  (connect_with_retry_spec (fun a => decide (a = 3))).2.2 3 (by omega) (by omega) (by decide)
    (fun j _ h2 => by simp only [decide_eq_false_iff_not]; omega)

/-- C9: when the component in the last chain position — the agent, which has
no successor — asks the conductor to send to its successor, the conductor
forwards nothing and instead answers a `_proxy/successor/send/request` with a
JSON-RPC internal error on that component's link, and answers a
`_proxy/successor/send/notification` with an error notification. -/
theorem last_component_successor_send_errors (components : List ComponentM) (method : String)
    (h : components ≠ []) :
    successor_send_request_action components (components.length - 1) method =
      .respondWithError internalError ∧
    successor_send_notification_action components (components.length - 1) method =
      .sendErrorNotification internalError := by
  have hlen : 1 ≤ components.length := List.length_pos.mpr h
  have hnone : components[(components.length - 1) + 1]? = none := by
    rw [List.getElem?_eq_none_iff]
    omega
  constructor <;> simp [successor_send_request_action, successor_send_notification_action, hnone]

/-- Witness for C9 at a two-component chain: position 1 is the agent. -/
theorem last_component_successor_send_errors_witness :
    successor_send_request_action [ComponentM.mk 0, ComponentM.mk 1] 1 "session/prompt" =
      .respondWithError internalError ∧
    successor_send_notification_action [ComponentM.mk 0, ComponentM.mk 1] 1 "session/update" =
      .sendErrorNotification internalError :=
  ⟨(last_component_successor_send_errors [ComponentM.mk 0, ComponentM.mk 1] "session/prompt"
      (by simp)).1,
    (last_component_successor_send_errors [ComponentM.mk 0, ComponentM.mk 1] "session/update"
      (by simp)).2⟩

/-- C10: a successful `add_rmcp_server` puts one and the same server record
into both registry maps — under the server's name on one side and under its
fresh `acp:<uuid>` url on the other — touching nothing else; a call whose name
is already registered reports an error and leaves the registry exactly as it
was. -/
theorem add_rmcp_server_sync (reg : McpServiceRegistryData) (name uuid : String) :
    (mapGet reg.registered_by_name name = none →
      (add_rmcp_server reg name uuid).2 = none ∧
      mapGet (add_rmcp_server reg name uuid).1.registered_by_name name =
        some { name := name, url := "acp:" ++ uuid } ∧
      mapGet (add_rmcp_server reg name uuid).1.registered_by_url ("acp:" ++ uuid) =
        some { name := name, url := "acp:" ++ uuid } ∧
      (∀ k, k ≠ name →
        mapGet (add_rmcp_server reg name uuid).1.registered_by_name k =
          mapGet reg.registered_by_name k) ∧
      (∀ k, k ≠ "acp:" ++ uuid →
        mapGet (add_rmcp_server reg name uuid).1.registered_by_url k =
          mapGet reg.registered_by_url k) ∧
      (add_rmcp_server reg name uuid).1.connections = reg.connections) ∧
    (mapGet reg.registered_by_name name ≠ none →
      (add_rmcp_server reg name uuid).1 = reg ∧
      (add_rmcp_server reg name uuid).2 ≠ none) := by
  constructor
  · intro h
    have hcond : ¬ (mapGet reg.registered_by_name name).isSome := by simp [h]
    refine ⟨?_, ?_, ?_, ?_, ?_, ?_⟩ <;>
      simp only [add_rmcp_server, hcond, if_false]
    · rfl
    · exact mapGet_insert_self reg.registered_by_name name _
    · exact mapGet_insert_self reg.registered_by_url ("acp:" ++ uuid) _
    · exact fun k hk => mapGet_insert_ne reg.registered_by_name name k _ hk
    · exact fun k hk => mapGet_insert_ne reg.registered_by_url ("acp:" ++ uuid) k _ hk
    · rfl
  · intro h
    have hcond : (mapGet reg.registered_by_name name).isSome := by
      cases hg : mapGet reg.registered_by_name name with
      | none => exact absurd hg h
      | some v => simp
    simp [add_rmcp_server, hcond]

/-- Witness for C10: adding to the empty registry succeeds and registers the
same record under both keys; adding the same name again errors and changes
nothing. -/
theorem add_rmcp_server_sync_witness :
    (add_rmcp_server { registered_by_name := [], registered_by_url := [], connections := [] }
        "tools" "u9").2 = none ∧
    mapGet (add_rmcp_server
        { registered_by_name := [], registered_by_url := [], connections := [] }
        "tools" "u9").1.registered_by_name "tools" =
      some { name := "tools", url := "acp:" ++ "u9" } ∧
    mapGet (add_rmcp_server
        { registered_by_name := [], registered_by_url := [], connections := [] }
        "tools" "u9").1.registered_by_url ("acp:" ++ "u9") =
      some { name := "tools", url := "acp:" ++ "u9" } ∧
    (add_rmcp_server (add_rmcp_server
        { registered_by_name := [], registered_by_url := [], connections := [] }
        "tools" "u9").1 "tools" "u10").1 =
      (add_rmcp_server { registered_by_name := [], registered_by_url := [], connections := [] }
        "tools" "u9").1 := by
  have h1 := (add_rmcp_server_sync
    { registered_by_name := [], registered_by_url := [], connections := [] } "tools" "u9").1 rfl
  have h2 := (add_rmcp_server_sync
    (add_rmcp_server { registered_by_name := [], registered_by_url := [], connections := [] }
      "tools" "u9").1 "tools" "u10").2 (by rw [h1.2.1]; simp)
  exact ⟨h1.1, h1.2.1, h1.2.2.1, h2.1⟩
